import Mathlib

/-!
Verification of the text-pagination / scrolling-display engine of the
hackmit quest companion application.

The definitions below are a shallow embedding of the TypeScript source:

* `wrapText` embeds the private method `wrapText` of `src/src/index.ts`
  (lines 403-432); the copy in `src/src/components/HUDOverlay.ts`
  (lines 451-480) is character-for-character identical, so one embedding
  covers both call sites.
* `displayScrollingTextTrace` embeds the private method
  `displayScrollingText` of `src/src/index.ts` (lines 437-504; HUDOverlay
  copy identical apart from the default delay) as the list of observable
  events it performs in program order: display-sink renders, timed
  suspensions (`await sleep`), and writes to the per-user
  `scrollingTextActive` map.
* `runSink` models execution against a display sink that may throw on a
  given render call: the trace is truncated at the first failing render
  (subsequent statements of the async function never execute) and the
  returned promise rejects.
* `handleQuestCommands`, `showDistanceCardForUser` and
  `checkQuestProximity` embed the display-write decision logic of the
  corresponding code in `src/src/index.ts` (lines 702-1159, 1580-1656,
  1745-1810).  Database / HTTP results consumed by that code are passed
  in as explicit environment records, and the Haversine distance (a
  transcendental function of the coordinates) is passed in as an oracle
  value, since only comparisons against it - not its computation -
  decide whether a display write happens.

JavaScript strings are modelled as `List Char`; JavaScript numbers that
carry durations are modelled as `ℚ` (the arithmetic the code performs on
them - `* 1.5`, `* 4` - is exact in binary floating point for the
magnitudes involved, so `ℚ` is a faithful model).
-/

namespace Hackmit

/-- JavaScript strings, modelled as lists of characters. -/
abbrev Str := List Char

/-- Build a `Str` from a Lean string literal. -/
def str (s : String) : Str := s.data

/-- The whitespace characters relevant to `String.prototype.trim` for the
strings this code base manipulates. -/
def isWs (c : Char) : Bool := c = ' ' || c = '\t' || c = '\n' || c = '\r'

/-- `s.trim() === ""` in JavaScript: every character is whitespace
(true in particular for the empty string). -/
def isBlank (s : Str) : Bool := s.all isWs

/-- JavaScript `String.prototype.split` with a single-character
separator: always returns one more piece than there are separator
occurrences, so `"".split(c) = [""]` and pieces may be empty. -/
def splitOn (sep : Char) : Str → List Str
  | [] => [[]]
  | c :: cs =>
    match splitOn sep cs with
    | [] => [[]]
    | r :: rs => if c = sep then [] :: r :: rs else (c :: r) :: rs

/-- The inner word loop of `wrapText` (src/src/index.ts lines 412-427):
iterate over the words of one paragraph, skipping words that are blank
after trimming, greedily growing `cur` while appending the next word
(separated by one space) keeps the length `≤ n`, and emitting the
accumulated line into `acc` otherwise; at the end the trailing line is
emitted when it is not blank. -/
def wrapWords (n : Nat) (acc : List Str) (cur : Str) : List Str → List Str
  | [] => if isBlank cur then acc else acc ++ [cur]
  | w :: ws =>
    if isBlank w then wrapWords n acc cur ws
    else if cur.isEmpty then wrapWords n acc w ws
    else if cur.length + 1 + w.length ≤ n then wrapWords n acc (cur ++ ' ' :: w) ws
    else wrapWords n (acc ++ [cur]) w ws

/-- The lines contributed by a single paragraph: one empty line if the
paragraph is blank (src/src/index.ts line 409-410), the word loop
otherwise. -/
def wrapPara (n : Nat) (p : Str) : List Str :=
  if isBlank p then [[]] else wrapWords n [] [] (splitOn ' ' p)

/-- `wrapText(text, maxLineLength)` of src/src/index.ts lines 403-432
(identical in HUDOverlay.ts lines 451-480): split on newlines and run
the word loop per paragraph, all paragraphs sharing the `lines`
accumulator exactly as in the source.  `maxLineLength` is a `Nat`; the
source's default is 36 and every call site uses the default. -/
def wrapText (text : Str) (n : Nat) : List Str :=
  (splitOn '\n' text).foldl
    (fun lines p =>
      if isBlank p then lines ++ [[]]
      else wrapWords n lines [] (splitOn ' ' p)) []

example : wrapText (str "Hello world") 20 = [str "Hello world"] := by decide

example : wrapText (str "Hello world\n\nThis is a fairly long line that needs wrapping") 20
    = [str "Hello world", str "", str "This is a fairly",
       str "long line that needs", str "wrapping"] := by decide

example : wrapText (str "") 36 = [[]] := by decide

example : wrapText (str "aaaa bbbbbbbb cc") 7 = [str "aaaa", str "bbbbbbbb", str "cc"] := by
  decide

/-- Observable events of one `displayScrollingText` invocation, in
program order. -/
inductive Event where
  /-- `session.layouts.showReferenceCard(title, body, { durationMs })`. -/
  | render (title body : Str) (durationMs : ℚ)
  /-- `await new Promise(resolve => setTimeout(resolve, ms))`. -/
  | sleep (ms : ℚ)
  /-- `this.scrollingTextActive.set(u, b)`. -/
  | setFlag (u : Str) (b : Bool)
deriving DecidableEq

/-- The `this.scrollingTextActive.set(userId, b)` statements are guarded
by `if (userId)`: JavaScript truthiness, so the write is skipped when the
reverse session lookup produced `undefined` or the empty string. -/
def flagEvents (userId : Option Str) (b : Bool) : List Event :=
  match userId with
  | none => []
  | some u => if u.isEmpty then [] else [.setFlag u b]

/-- `lines.slice(p, p + m).join("\n")`. -/
def window (lines : List Str) (m p : Nat) : Str :=
  List.intercalate (str "\n") ((lines.drop p).take m)

/-- The scrolling path of `displayScrollingText` (src/src/index.ts lines
461-498) after the flag was set: render window 0 for `d * 1.5`, sleep
`d`, then for each position `1 ≤ p < totalScrollPositions` render the
window at `p` (duration `d * 4` at the last position, `d * 1.5`
otherwise) and sleep `d` except after the last position. -/
def scrollBody (title : Str) (lines : List Str) (m : Nat) (d : ℚ) : List Event :=
  let total := lines.length - m + 1
  Event.render title (window lines m 0) (d * (3 / 2)) :: Event.sleep d ::
    (List.range' 1 (total - 1)).flatMap (fun p =>
      if p = total - 1 then [Event.render title (window lines m p) (d * 4)]
      else [Event.render title (window lines m p) (d * (3 / 2)), Event.sleep d])

/-- The full event trace of `displayScrollingText(session, title,
content, maxLinesPerScreen, scrollDelay)` (src/src/index.ts lines
437-504): `userId` is the result of the reverse lookup of `session` in
`userSessionsMap`; the content is wrapped with the default
`maxLineLength = 36` (the call `this.wrapText(content)` passes no second
argument); if the wrapped lines fit one screen the original `content` is
rendered once with the open-ended sentinel `durationMs: -1` and the
function returns; otherwise the flag is set, the scroll sequence runs,
and the flag is cleared. -/
def displayScrollingTextTrace (userId : Option Str) (title content : Str)
    (m : Nat) (d : ℚ) : List Event :=
  let lines := wrapText content 36
  if lines.length ≤ m then [Event.render title content (-1)]
  else flagEvents userId true ++ scrollBody title lines m d ++ flagEvents userId false

/-- Run a trace against a display sink that throws on render call `k`
whenever `fails k` is true: events before the first failing render
happen, the failing render and everything after it do not, and the
second component records whether the async function's promise rejected. -/
def runSink (fails : Nat → Bool) : List Event → Nat → List Event × Bool
  | [], _ => ([], false)
  | Event.render t b d :: es, k =>
    if fails k then ([], true)
    else
      let r := runSink fails es (k + 1)
      (Event.render t b d :: r.1, r.2)
  | e :: es, k =>
    let r := runSink fails es k
    (e :: r.1, r.2)

/-- The per-user `scrollingTextActive` map, as an association list. -/
def FlagMap := List (Str × Bool)

/-- `map.get(u)` : `some` the stored value, `none` when absent. -/
def getFlag (fm : FlagMap) (u : Str) : Option Bool :=
  (fm.find? (fun e => decide (e.1 = u))).map (·.2)

/-- `map.set(u, b)`. -/
def setFlag (fm : FlagMap) (u : Str) (b : Bool) : FlagMap :=
  match fm with
  | [] => [(u, b)]
  | e :: es => if e.1 = u then (u, b) :: es else e :: setFlag es u b

/-- Replay the `setFlag` events of a trace onto a flag map. -/
def applyEvents (evs : List Event) (fm : FlagMap) : FlagMap :=
  evs.foldl
    (fun fm e =>
      match e with
      | Event.setFlag u b => setFlag fm u b
      | _ => fm) fm

/-- The render calls of a trace: (title, body, durationMs), in order. -/
def renders (evs : List Event) : List (Str × Str × ℚ) :=
  evs.filterMap (fun e =>
    match e with
    | Event.render t b d => some (t, b, d)
    | _ => none)

example :
    displayScrollingTextTrace (some (str "u")) (str "T") (str "a\nb\nc\nd") 3 1400
      = [Event.setFlag (str "u") true,
         Event.render (str "T") (str "a\nb\nc") (1400 * (3 / 2)), Event.sleep 1400,
         Event.render (str "T") (str "b\nc\nd") (1400 * 4),
         Event.setFlag (str "u") false] := rfl

example :
    displayScrollingTextTrace (some (str "u")) (str "T") (str "a\nb\nc") 3 1400
      = [Event.render (str "T") (str "a\nb\nc") (-1)] := rfl

/-! ### Session coordination: the other display writers

`handleQuestCommands` (src/src/index.ts lines 702-1159),
`showDistanceCardForUser` (lines 1580-1656) and `checkQuestProximity`
(lines 1745-1810) are async functions whose display writes depend on
database / directions-API results; those results are passed in here as
explicit environment records, and each function is embedded as the list
of display writes it performs on its non-throwing paths.  TTS playback
and logging are not display writes and are not recorded. -/

/-- One write to the user's display. -/
inductive Write where
  /-- `session.layouts.showTextWall(message, { durationMs })`; the
  message text is not tracked, the duration identifies the call site. -/
  | textWall (durationMs : ℚ)
  /-- a call to `displayQuestTemplate` (which renders the quest card). -/
  | questCard
  /-- a call to `displayScrollingText`. -/
  | scrollCard
  /-- a call to one of the dedicated views: 0 `showLeaderboard`,
  1 `showProgress`, 2 `showDirectionsForUser`, 3 `showChallenges`,
  4 `showTeams`, 5 `showQuestRaces`, 6 `showRegionalLeaderboard`,
  7 `showUserStats`. -/
  | subView (tag : Nat)
deriving DecidableEq

/-- `String.prototype.trim`. -/
def trimStr (s : Str) : Str :=
  ((s.dropWhile isWs).reverse.dropWhile isWs).reverse

/-- `String.prototype.toLowerCase` (sufficient for the ASCII command
keywords the handler matches). -/
def toLowerStr (s : Str) : Str := s.map Char.toLower

/-- `hay.includes(needle)`. -/
def containsSub (needle hay : Str) : Bool :=
  hay.tails.any (fun t => needle.isPrefixOf t)

/-- JavaScript truthiness of an optional numeric field
(`questTemplate.location_lat && ...`): present and nonzero.  A rational
is nonzero exactly when its numerator is, and the numerator test is the
one the kernel can evaluate. -/
def truthyNum (x : Option ℚ) : Bool :=
  match x with
  | none => false
  | some v => decide (v.num ≠ 0)

/-- External results consumed by `handleQuestCommands`. -/
structure CommandEnv where
  /-- `database.getUserActiveQuest(userId)` returned a quest. -/
  activeQuest : Bool
  /-- `database.getQuestTemplateById(...)` returned a template. -/
  templateFound : Bool
  /-- `userLocationsMap.get(userId)` is defined. -/
  userLocation : Bool
  /-- `generateAIQuest` / `getRandomQuestTemplate` returned a template. -/
  generatedQuest : Bool
  /-- `createActiveQuestForUser` / `createActiveQuest` succeeded. -/
  createSucceeded : Bool

/-- External results consumed by `showDistanceCardForUser` and
`checkQuestProximity`. -/
structure DistanceEnv where
  /-- `database.getUserActiveQuest(userId)` returned a quest. -/
  activeQuest : Bool
  /-- `database.getQuestTemplateById(...)` returned a template. -/
  templateFound : Bool
  /-- `questTemplate.location_lat`. -/
  questLat : Option ℚ
  /-- `questTemplate.location_lng`. -/
  questLng : Option ℚ
  /-- `userLocationsMap.get(userId)` is defined. -/
  userLocation : Bool
  /-- the value of `calculateDistance(...)` in km, passed as an oracle:
  the Haversine formula itself is transcendental, and only comparisons
  against its value decide which message is shown. -/
  distanceKm : ℚ
  /-- `lastDistanceNotificationMap.get(userId)`. -/
  lastNotification : Option Int
  /-- `Date.now()` (milliseconds, an integer). -/
  now : Int

/-- `showDistanceCardForUser(userId, session)` (src/src/index.ts lines
1580-1656): returns immediately when `scrollingTextActive.get(userId)`
is truthy; otherwise, when an active quest with truthy coordinates and a
known user location exist, shows one `showTextWall` with
`durationMs: 5000` (both the near branch and the far branch use 5000). -/
def showDistanceCardForUser (flags : FlagMap) (userId : Str)
    (env : DistanceEnv) : List Write :=
  if (getFlag flags userId).getD false then []
  else if env.activeQuest then
    if env.templateFound && truthyNum env.questLat && truthyNum env.questLng
        && env.userLocation then
      if env.distanceKm ≤ 1 / 10 then [Write.textWall 5000] else [Write.textWall 5000]
    else []
  else []

/-- `checkQuestProximity(userId, locationData, session)`
(src/src/index.ts lines 1745-1810): never reads `scrollingTextActive`
(the `_flags` parameter mirrors the state the method could have read but
does not); when an active quest with truthy coordinates exists and the
6-second throttle `now - lastNotification > 6000` passes, shows one
`showTextWall` with `durationMs: 2000` (both distance branches). -/
def checkQuestProximity (_flags : FlagMap) (_userId : Str)
    (env : DistanceEnv) : List Write :=
  if env.activeQuest then
    if env.templateFound && truthyNum env.questLat && truthyNum env.questLng then
      if 6000 < env.now - (env.lastNotification.getD 0) then
        if env.distanceKm ≤ 1 / 10 then [Write.textWall 2000] else [Write.textWall 2000]
      else []
    else []
  else []

/-- The display writes of the happy (non-throwing) path of the voice
command handler `handleQuestCommands(text)` (src/src/index.ts lines
702-1159): normalize the transcription, return immediately when
`scrollingTextActive.get(userId)` is truthy, then dispatch on keyword
containment in the source's `else if` order. -/
def handleQuestCommands (flags : FlagMap) (userId : Str) (text : Str)
    (env : CommandEnv) (denv : DistanceEnv) : List Write :=
  let t := trimStr (toLowerStr text)
  if (getFlag flags userId).getD false then []
  else if containsSub (str "new quest") t || containsSub (str "get quest") t
      || containsSub (str "start quest") t then
    if env.activeQuest then [Write.textWall 4000]
    else
      (if env.userLocation then [Write.textWall 3000] else [])
        ++ (if env.generatedQuest then
              if env.createSucceeded then [Write.questCard] else [Write.textWall 3000]
            else [Write.textWall 3000])
  else if containsSub (str "current quest") t || containsSub (str "my quest") t
      || containsSub (str "show quest") t then
    if env.activeQuest then
      if env.templateFound then [Write.questCard] else [Write.textWall 3000]
    else [Write.textWall 3000]
  else if containsSub (str "complete quest") t || containsSub (str "finish quest") t
      || containsSub (str "end quest") t then
    if env.activeQuest then [Write.scrollCard] else [Write.textWall 3000]
  else if containsSub (str "show leaderboard") t || containsSub (str "get leaderboard") t
      || containsSub (str "rankings") t || containsSub (str "leaderboard") t then
    [Write.subView 0]
  else if containsSub (str "show progress") t || containsSub (str "my progress") t
      || containsSub (str "streak") t then
    [Write.subView 1]
  else if containsSub (str "show distance") t || containsSub (str "how far") t
      || containsSub (str "distance") t then
    showDistanceCardForUser flags userId denv
  else if containsSub (str "get directions") t || containsSub (str "directions") t
      || containsSub (str "how do i get there") t || containsSub (str "navigate") t then
    [Write.subView 2]
  else if containsSub (str "reroll quest") t || containsSub (str "re-roll quest") t
      || containsSub (str "new quest please") t || containsSub (str "different quest") t
      || containsSub (str "skip quest") t then
    if !env.activeQuest then [Write.textWall 3000]
    else
      Write.textWall 3000 ::
        ((if env.userLocation then [Write.textWall 10000] else [])
          ++ (if env.generatedQuest then
                if env.createSucceeded then [Write.questCard, Write.textWall 4000]
                else [Write.textWall 3000]
              else [Write.textWall 3000]))
  else if containsSub (str "challenges") t || containsSub (str "community challenges") t
      || containsSub (str "weekly challenge") t
      || containsSub (str "monthly challenge") t then
    [Write.subView 3]
  else if containsSub (str "teams") t || containsSub (str "my team") t
      || containsSub (str "join team") t || containsSub (str "team competition") t then
    [Write.subView 4]
  else if containsSub (str "quest race") t || containsSub (str "racing") t
      || containsSub (str "race") t || containsSub (str "speed challenge") t then
    [Write.subView 5]
  else if containsSub (str "regional leaderboard") t
      || containsSub (str "regional rankings") t || containsSub (str "city leaderboard") t
      || containsSub (str "local rankings") t then
    [Write.subView 6]
  else if containsSub (str "my stats") t || containsSub (str "user stats") t
      || containsSub (str "achievements") t || containsSub (str "badges") t then
    [Write.subView 7]
  else []

/-! ### Lemmas about `splitOn` -/

theorem splitOn_ne_nil (sep : Char) (s : Str) : splitOn sep s ≠ [] := by
  cases s with
  | nil => simp [splitOn]
  | cons c cs =>
    simp only [splitOn]
    cases h : splitOn sep cs with
    | nil => simp
    | cons r rs =>
      by_cases hc : c = sep <;> simp [hc]

theorem not_mem_of_mem_splitOn (sep : Char) (s : Str) :
    ∀ p ∈ splitOn sep s, sep ∉ p := by
  induction s with
  | nil =>
    intro p hp
    simp only [splitOn, List.mem_singleton] at hp
    simp [hp]
  | cons c cs ih =>
    intro p hp
    rcases hsp : splitOn sep cs with _ | ⟨r, rs⟩
    · exact absurd hsp (splitOn_ne_nil sep cs)
    · simp only [splitOn, hsp] at hp
      have hr : sep ∉ r := ih r (by rw [hsp]; exact List.mem_cons_self r rs)
      have hrs : ∀ q ∈ rs, sep ∉ q := fun q hq =>
        ih q (by rw [hsp]; exact List.mem_cons_of_mem r hq)
      by_cases hc : c = sep
      · rw [if_pos hc] at hp
        rcases List.mem_cons.mp hp with rfl | hp'
        · simp
        · rcases List.mem_cons.mp hp' with rfl | hp''
          · exact hr
          · exact hrs p hp''
      · rw [if_neg hc] at hp
        rcases List.mem_cons.mp hp with rfl | hp'
        · simp only [List.mem_cons, not_or]
          exact ⟨fun he => hc he.symm, hr⟩
        · exact hrs p hp'

theorem splitOn_of_not_mem (sep : Char) (s : Str) (h : sep ∉ s) :
    splitOn sep s = [s] := by
  induction s with
  | nil => simp [splitOn]
  | cons c cs ih =>
    simp only [List.mem_cons, not_or] at h
    have hc : ¬ c = sep := fun he => h.1 he.symm
    simp [splitOn, ih h.2, hc]

theorem splitOn_append (sep : Char) (a b : Str) :
    splitOn sep (a ++ sep :: b) = splitOn sep a ++ splitOn sep b := by
  induction a with
  | nil =>
    rcases h : splitOn sep b with _ | ⟨r, rs⟩
    · exact absurd h (splitOn_ne_nil sep b)
    · simp [splitOn, h]
  | cons c cs ih =>
    rcases h : splitOn sep cs with _ | ⟨r, rs⟩
    · exact absurd h (splitOn_ne_nil sep cs)
    · have key : splitOn sep (c :: cs ++ sep :: b)
          = match splitOn sep (cs ++ sep :: b) with
            | [] => [[]]
            | r :: rs => if c = sep then [] :: r :: rs else (c :: r) :: rs := rfl
      rw [key, ih, h]
      by_cases hc : c = sep <;> simp [splitOn, h, hc]

/-! ### Lemmas about `wrapWords` and `wrapText` -/

theorem wrapWords_acc (n : Nat) (ws : List Str) :
    ∀ (acc : List Str) (cur : Str),
      wrapWords n acc cur ws = acc ++ wrapWords n [] cur ws := by
  induction ws with
  | nil =>
    intro acc cur
    by_cases hb : isBlank cur <;> simp [wrapWords, hb]
  | cons w ws ih =>
    intro acc cur
    by_cases hw : isBlank w
    · simp only [wrapWords, hw, if_true]
      exact ih acc cur
    · by_cases hcur : cur.isEmpty
      · simp only [wrapWords, hw, if_false, hcur, if_true]
        exact ih acc w
      · by_cases hfit : cur.length + 1 + w.length ≤ n
        · simp only [wrapWords, hw, if_false, hcur, hfit, if_true]
          exact ih acc (cur ++ ' ' :: w)
        · have h1 := ih (acc ++ [cur]) w
          have h2 := ih [cur] w
          simp [wrapWords, hw, hcur, hfit, h1, h2]

theorem wrapText_eq_flatMap (text : Str) (n : Nat) :
    wrapText text n = (splitOn '\n' text).flatMap (wrapPara n) := by
  suffices h : ∀ (ps : List Str) (init : List Str),
      ps.foldl
        (fun lines p =>
          if isBlank p then lines ++ [[]]
          else wrapWords n lines [] (splitOn ' ' p)) init
        = init ++ ps.flatMap (wrapPara n) by
    simpa [wrapText] using h (splitOn '\n' text) []
  intro ps
  induction ps with
  | nil => intro init; simp
  | cons p ps ih =>
    intro init
    by_cases hb : isBlank p
    · simp only [List.foldl_cons, hb, if_true, ih, List.flatMap_cons, wrapPara]
      simp [hb]
    · simp only [List.foldl_cons, hb, if_false, ih, List.flatMap_cons, wrapPara]
      rw [wrapWords_acc]
      simp [hb]

/-- Loop invariant giving the amended C2: every emitted line either fits
the budget or is a single space-free word. -/
theorem wrapWords_line_ok (n : Nat) (ws : List Str) :
    ∀ (acc : List Str) (cur : Str),
      (∀ l ∈ acc, l.length ≤ n ∨ ' ' ∉ l) →
      (cur = [] ∨ ' ' ∉ cur ∨ cur.length ≤ n) →
      (∀ w ∈ ws, ' ' ∉ w) →
      ∀ l ∈ wrapWords n acc cur ws, l.length ≤ n ∨ ' ' ∉ l := by
  induction ws with
  | nil =>
    intro acc cur hacc hcur _ l hl
    by_cases hb : isBlank cur
    · simp only [wrapWords, hb, if_true] at hl
      exact hacc l hl
    · simp only [wrapWords, hb, if_false] at hl
      rcases List.mem_append.mp hl with h | h
      · exact hacc l h
      · rcases List.mem_singleton.mp h with rfl
        rcases hcur with rfl | h' | h'
        · exact Or.inl (by simp)
        · exact Or.inr h'
        · exact Or.inl h'
  | cons w ws ih =>
    intro acc cur hacc hcur hws l hl
    have hwfree : ' ' ∉ w := hws w (List.mem_cons_self w ws)
    have hws' : ∀ v ∈ ws, ' ' ∉ v := fun v hv => hws v (List.mem_cons_of_mem w hv)
    by_cases hw : isBlank w
    · simp only [wrapWords, hw, if_true] at hl
      exact ih acc cur hacc hcur hws' l hl
    · by_cases hcure : cur.isEmpty
      · simp only [wrapWords, hw, if_false, hcure, if_true] at hl
        exact ih acc w hacc (Or.inr (Or.inl hwfree)) hws' l hl
      · by_cases hfit : cur.length + 1 + w.length ≤ n
        · simp only [wrapWords, hw, if_false, hcure, hfit, if_true] at hl
          refine ih acc (cur ++ ' ' :: w) hacc (Or.inr (Or.inr ?_)) hws' l hl
          simp only [List.length_append, List.length_cons]
          omega
        · simp only [wrapWords, hw, if_false, hcure, hfit] at hl
          refine ih (acc ++ [cur]) w ?_ (Or.inr (Or.inl hwfree)) hws' l hl
          intro l' hl'
          rcases List.mem_append.mp hl' with h | h
          · exact hacc l' h
          · rcases List.mem_singleton.mp h with rfl
            rcases hcur with rfl | h' | h'
            · exact absurd rfl hcure
            · exact Or.inr h'
            · exact Or.inl h'

theorem isBlank_append (a b : Str) :
    isBlank (a ++ b) = (isBlank a && isBlank b) := by
  simp [isBlank, List.all_append]

/-- Loop invariant giving the amended C1: splitting the emitted lines
back into words recovers exactly the paragraph's words that are not
blank after trimming, in order. -/
theorem wrapWords_words (n : Nat) (ws : List Str) :
    ∀ (acc : List Str) (cur : Str),
      (cur = [] ∨ isBlank cur = false) →
      (∀ w ∈ ws, ' ' ∉ w) →
      (wrapWords n acc cur ws).flatMap (splitOn ' ')
        = acc.flatMap (splitOn ' ')
            ++ (if cur = [] then [] else splitOn ' ' cur)
            ++ ws.filter (fun w => !isBlank w) := by
  induction ws with
  | nil =>
    intro acc cur hcur _
    by_cases hb : isBlank cur
    · have hce : cur = [] := by
        rcases hcur with h | h
        · exact h
        · rw [h] at hb; exact absurd hb (by simp)
      subst hce
      simp [wrapWords, isBlank]
    · have hce : ¬ cur = [] := fun h => hb (by simp [h, isBlank])
      simp only [wrapWords]
      rw [if_neg hb]
      simp [hce]
  | cons w ws ih =>
    intro acc cur hcur hws
    have hwfree : ' ' ∉ w := hws w (List.mem_cons_self w ws)
    have hws' : ∀ v ∈ ws, ' ' ∉ v := fun v hv => hws v (List.mem_cons_of_mem w hv)
    by_cases hw : isBlank w
    · simp only [wrapWords]
      rw [if_pos hw, ih acc cur hcur hws']
      simp [hw]
    · have hwne : w ≠ [] := fun h => hw (by simp [h, isBlank])
      by_cases hcure : cur.isEmpty
      · have hce : cur = [] := by
          cases cur with
          | nil => rfl
          | cons a l => simp [List.isEmpty] at hcure
        simp only [wrapWords]
        rw [if_neg hw, if_pos hcure, ih acc w (Or.inr (by simpa using hw)) hws']
        simp [hce, hwne, splitOn_of_not_mem ' ' w hwfree, hw]
      · have hce : ¬ cur = [] := fun h => by simp [h, List.isEmpty] at hcure
        have hcb : isBlank cur = false := by
          rcases hcur with h | h
          · exact absurd h hce
          · exact h
        by_cases hfit : cur.length + 1 + w.length ≤ n
        · have hcur' : cur ++ ' ' :: w = [] ∨ isBlank (cur ++ ' ' :: w) = false := by
            right
            rw [isBlank_append, hcb]
            simp
          simp only [wrapWords]
          rw [if_neg hw, if_neg hcure, if_pos hfit, ih acc (cur ++ ' ' :: w) hcur' hws']
          have hsplit : splitOn ' ' (cur ++ ' ' :: w) = splitOn ' ' cur ++ [w] := by
            rw [splitOn_append, splitOn_of_not_mem ' ' w hwfree]
          simp [hce, hsplit, hw]
        · simp only [wrapWords]
          rw [if_neg hw, if_neg hcure, if_neg hfit,
            ih (acc ++ [cur]) w (Or.inr (by simpa using hw)) hws']
          simp [hce, hwne, splitOn_of_not_mem ' ' w hwfree, hw]

/-! ### Claims C1 and C2: the Line Wrapper -/

/-- **C1, counterexample.**  The claim says each non-blank paragraph
contributes its *non-empty* space-separated words in order, so reading
the words back off the produced lines would have to give exactly the
non-empty words of the paragraph.  The source's word filter is
`word.trim() === ""`, which also drops words that are non-empty but
whitespace-only: on the paragraph `"a \t b"` the non-empty words are
`"a"`, `"\t"`, `"b"`, yet the produced lines hold only `"a"` and
`"b"`. -/
theorem wrapText_drops_blank_word_counterexample :
    ¬ ((wrapText (str "a \t b") 36).flatMap (splitOn ' ')
        = (splitOn ' ' (str "a \t b")).filter (fun w => !w.isEmpty)) := by
  decide

/-- **C1 (amended).**  `wrapText` is the per-paragraph wrap concatenated
over the newline-split of the input, in order; a blank paragraph
contributes exactly one empty line; a non-blank paragraph's lines,
split back into their space-separated words, give exactly the
paragraph's words that are non-blank after trimming (rather than its
non-empty words), in their original order. -/
theorem wrapText_structure (text : Str) (n : Nat) :
    wrapText text n = (splitOn '\n' text).flatMap (wrapPara n)
    ∧ ∀ p ∈ splitOn '\n' text,
        (isBlank p = true → wrapPara n p = [[]])
        ∧ (isBlank p = false →
            (wrapPara n p).flatMap (splitOn ' ')
              = (splitOn ' ' p).filter (fun w => !isBlank w)) := by
  refine ⟨wrapText_eq_flatMap text n, ?_⟩
  intro p _
  constructor
  · intro hb
    simp [wrapPara, hb]
  · intro hb
    simp only [wrapPara]
    rw [if_neg (by simp [hb]),
      wrapWords_words n (splitOn ' ' p) [] [] (Or.inl rfl) (not_mem_of_mem_splitOn ' ' p)]
    simp

/-- Witness for C1 at a concrete input. -/
theorem wrapText_structure_witness :
    (str "Hello world" ∈ splitOn '\n' (str "Hello world\nx"))
    ∧ isBlank (str "Hello world") = false
    ∧ (wrapPara 20 (str "Hello world")).flatMap (splitOn ' ')
        = (splitOn ' ' (str "Hello world")).filter (fun w => !isBlank w) :=
  ⟨by decide, by decide,
    ((wrapText_structure (str "Hello world\nx") 20).2 (str "Hello world") (by decide)).2
      (by decide)⟩

/-- **C2.**  Every line produced by `wrapText` either fits the length
budget, or is a single space-free word longer than the budget; words
are never split. -/
theorem wrapText_line_budget (text : Str) (n : Nat) (_hn : 0 < n)
    (l : Str) (hl : l ∈ wrapText text n) :
    l.length ≤ n ∨ (' ' ∉ l ∧ n < l.length) := by
  rw [wrapText_eq_flatMap] at hl
  rcases List.mem_flatMap.mp hl with ⟨p, hp, hlp⟩
  have hok : l.length ≤ n ∨ ' ' ∉ l := by
    by_cases hb : isBlank p
    · simp only [wrapPara] at hlp
      rw [if_pos hb] at hlp
      rcases List.mem_singleton.mp hlp with rfl
      exact Or.inl (by simp)
    · simp only [wrapPara] at hlp
      rw [if_neg hb] at hlp
      exact wrapWords_line_ok n (splitOn ' ' p) [] [] (by simp) (Or.inl rfl)
        (not_mem_of_mem_splitOn ' ' p) l hlp
  rcases hok with h | h
  · exact Or.inl h
  · by_cases hlen : l.length ≤ n
    · exact Or.inl hlen
    · exact Or.inr ⟨h, Nat.lt_of_not_le hlen⟩

/-- Witness for C2 at a concrete input: with budget 7, the word
`bbbbbbbb` is kept whole on its own over-budget line. -/
theorem wrapText_line_budget_witness :
    0 < 7
    ∧ (str "bbbbbbbb" ∈ wrapText (str "aaaa bbbbbbbb cc") 7)
    ∧ ((str "bbbbbbbb").length ≤ 7
        ∨ (' ' ∉ str "bbbbbbbb" ∧ 7 < (str "bbbbbbbb").length)) :=
  ⟨by decide, by decide,
    wrapText_line_budget (str "aaaa bbbbbbbb cc") 7 (by decide) (str "bbbbbbbb") (by decide)⟩

/-! ### Lemmas about the scroll trace -/

theorem flatMap_ite_last (A B : Nat → List Event) (k : Nat) :
    ∀ (s len : Nat), s + len ≤ k →
      (List.range' s len).flatMap (fun p => if p = k then A p else B p)
        = (List.range' s len).flatMap B := by
  intro s len
  induction len generalizing s with
  | zero => intro _; simp
  | succ m ih =>
    intro h
    rw [List.range'_succ, List.flatMap_cons, List.flatMap_cons,
      if_neg (by omega), ih (s + 1) (by omega)]

/-- The scrolling path, flattened: all non-last windows carry duration
`d * 1.5` and are each followed by one `sleep d`; the last window (at
position `lines.length - m`) carries duration `d * 4` and nothing
follows it. -/
theorem scrollBody_eq (title : Str) (lines : List Str) (m : Nat) (d : ℚ)
    (h : m < lines.length) :
    scrollBody title lines m d
      = (List.range (lines.length - m)).flatMap
          (fun p => [Event.render title (window lines m p) (d * (3 / 2)), Event.sleep d])
        ++ [Event.render title (window lines m (lines.length - m)) (d * 4)] := by
  have hk : 1 ≤ lines.length - m := by omega
  have htotal : lines.length - m + 1 - 1 = lines.length - m := by omega
  simp only [scrollBody, htotal]
  set k := lines.length - m with hkdef
  have hksplit : k = (k - 1) + 1 := by omega
  rw [hksplit, List.range'_concat, List.flatMap_append,
    flatMap_ite_last _ _ ((k - 1) + 1) 1 (k - 1) (by omega)]
  have hlast : 1 + 1 * (k - 1) = (k - 1) + 1 := by omega
  rw [hlast]
  simp only [List.flatMap_cons, List.flatMap_nil, if_pos rfl]
  rw [List.range_eq_range', hksplit, List.range'_succ, List.flatMap_cons]
  simp

theorem renders_append (a b : List Event) : renders (a ++ b) = renders a ++ renders b :=
  List.filterMap_append a b _

theorem renders_flagEvents (u : Option Str) (b : Bool) : renders (flagEvents u b) = [] := by
  cases u with
  | none => rfl
  | some v =>
    simp only [flagEvents]
    by_cases hv : v.isEmpty
    · rw [if_pos hv]; rfl
    · rw [if_neg hv]; rfl

theorem renders_window_blocks (title : Str) (lines : List Str) (m : Nat) (d : ℚ) :
    ∀ ps : List Nat,
      renders (ps.flatMap
          (fun p => [Event.render title (window lines m p) (d * (3 / 2)), Event.sleep d]))
        = ps.map (fun p => (title, window lines m p, d * (3 / 2))) := by
  intro ps
  induction ps with
  | nil => rfl
  | cons p ps ih =>
    simp only [List.flatMap_cons, List.map_cons, renders_append, ih]
    rfl

theorem applyEvents_append (a b : List Event) (fm : FlagMap) :
    applyEvents (a ++ b) fm = applyEvents b (applyEvents a fm) := by
  simp only [applyEvents]
  exact List.foldl_append _ _ _ _

theorem applyEvents_window_blocks (title : Str) (lines : List Str) (m : Nat) (d : ℚ) :
    ∀ (ps : List Nat) (fm : FlagMap),
      applyEvents (ps.flatMap
          (fun p => [Event.render title (window lines m p) (d * (3 / 2)), Event.sleep d])) fm
        = fm := by
  intro ps
  induction ps with
  | nil => intro fm; rfl
  | cons p ps ih =>
    intro fm
    simp only [List.flatMap_cons]
    rw [applyEvents_append]
    exact ih fm

/-! ### Claims C3, C4, C5: the Scroll Scheduler -/

/-- **C3.**  In a scrolling invocation (`lineCount > maxLinesPerScreen`)
the sink receives exactly `lineCount - maxLinesPerScreen + 1` render
calls, the call at position `p` showing lines `[p, p + m)`, in strictly
increasing position order with no window skipped or repeated; in a
single-screen invocation it receives exactly one call showing the whole
content. -/
theorem displayScrollingText_window_sequence (u : Option Str) (title content : Str)
    (m : Nat) (d : ℚ) :
    ((wrapText content 36).length ≤ m →
      renders (displayScrollingTextTrace u title content m d)
        = [(title, content, (-1 : ℚ))])
    ∧ (m < (wrapText content 36).length →
      renders (displayScrollingTextTrace u title content m d)
        = (List.range ((wrapText content 36).length - m + 1)).map
            (fun p => (title, window (wrapText content 36) m p,
              if p = (wrapText content 36).length - m then d * 4 else d * (3 / 2)))) := by
  constructor
  · intro h
    simp only [displayScrollingTextTrace]
    rw [if_pos h]
    rfl
  · intro h
    simp only [displayScrollingTextTrace]
    rw [if_neg (by omega), renders_append, renders_append, renders_flagEvents,
      renders_flagEvents, scrollBody_eq _ _ _ _ h, renders_append, renders_window_blocks]
    rw [List.range_succ, List.map_append]
    simp only [List.append_nil, List.nil_append, List.map_cons, List.map_nil, if_pos rfl]
    congr 1
    refine (List.map_congr_left ?_).symm
    intro p hp
    rw [if_neg (by rcases List.mem_range.mp hp with h'; omega)]

/-- Witness for C3: a four-line content scrolls through two windows; a
two-line content renders once with the open-ended sentinel. -/
theorem displayScrollingText_window_sequence_witness :
    3 < (wrapText (str "a\nb\nc\nd") 36).length
    ∧ renders (displayScrollingTextTrace (some (str "u")) (str "T") (str "a\nb\nc\nd") 3 1400)
        = (List.range ((wrapText (str "a\nb\nc\nd") 36).length - 3 + 1)).map
            (fun p => (str "T", window (wrapText (str "a\nb\nc\nd") 36) 3 p,
              if p = (wrapText (str "a\nb\nc\nd") 36).length - 3 then (1400 : ℚ) * 4
              else 1400 * (3 / 2)))
    ∧ (wrapText (str "a\nb") 36).length ≤ 3
    ∧ renders (displayScrollingTextTrace (some (str "u")) (str "T") (str "a\nb") 3 1400)
        = [(str "T", str "a\nb", (-1 : ℚ))] :=
  ⟨by decide,
    (displayScrollingText_window_sequence (some (str "u")) (str "T")
      (str "a\nb\nc\nd") 3 1400).2 (by decide),
    by decide,
    (displayScrollingText_window_sequence (some (str "u")) (str "T")
      (str "a\nb") 3 1400).1 (by decide)⟩

/-- **C4.**  In a scrolling invocation, every window except the last
(the initial window at position 0 included) is rendered with duration
`scrollDelay * 1.5` and followed by one suspension of `scrollDelay`
before the next render; the last window is rendered with duration
`scrollDelay * 4` and nothing follows it but the flag clear. -/
theorem displayScrollingText_dwell_times (u : Option Str) (title content : Str)
    (m : Nat) (d : ℚ) (h : m < (wrapText content 36).length) :
    displayScrollingTextTrace u title content m d
      = flagEvents u true
        ++ ((List.range ((wrapText content 36).length - m)).flatMap
              (fun p => [Event.render title (window (wrapText content 36) m p) (d * (3 / 2)),
                Event.sleep d])
            ++ [Event.render title
                  (window (wrapText content 36) m ((wrapText content 36).length - m))
                  (d * 4)])
        ++ flagEvents u false := by
  simp only [displayScrollingTextTrace]
  rw [if_neg (by omega), scrollBody_eq _ _ _ _ h]

/-- Witness for C4 at a concrete input. -/
theorem displayScrollingText_dwell_times_witness :
    3 < (wrapText (str "a\nb\nc\nd") 36).length
    ∧ displayScrollingTextTrace (some (str "u")) (str "T") (str "a\nb\nc\nd") 3 1400
        = flagEvents (some (str "u")) true
          ++ ((List.range ((wrapText (str "a\nb\nc\nd") 36).length - 3)).flatMap
                (fun p => [Event.render (str "T")
                  (window (wrapText (str "a\nb\nc\nd") 36) 3 p) ((1400 : ℚ) * (3 / 2)),
                  Event.sleep 1400])
              ++ [Event.render (str "T")
                    (window (wrapText (str "a\nb\nc\nd") 36) 3
                      ((wrapText (str "a\nb\nc\nd") 36).length - 3))
                    ((1400 : ℚ) * 4)])
          ++ flagEvents (some (str "u")) false :=
  ⟨by decide,
    displayScrollingText_dwell_times (some (str "u")) (str "T") (str "a\nb\nc\nd") 3 1400
      (by decide)⟩

/-- **C5.**  In a single-screen invocation the sink is called exactly
once, with the original content and the open-ended sentinel
`durationMs = -1`, and the `scrollingTextActive` map is never written:
replaying the trace leaves any flag map unchanged. -/
theorem displayScrollingText_fast_path (u : Option Str) (title content : Str)
    (m : Nat) (d : ℚ) (h : (wrapText content 36).length ≤ m) :
    displayScrollingTextTrace u title content m d = [Event.render title content (-1)]
    ∧ ∀ fm : FlagMap, applyEvents (displayScrollingTextTrace u title content m d) fm = fm := by
  have ht : displayScrollingTextTrace u title content m d
      = [Event.render title content (-1)] := by
    simp only [displayScrollingTextTrace]
    rw [if_pos h]
  refine ⟨ht, fun fm => ?_⟩
  rw [ht]
  rfl

/-- Witness for C5 at a concrete input. -/
theorem displayScrollingText_fast_path_witness :
    (wrapText (str "a\nb") 36).length ≤ 3
    ∧ displayScrollingTextTrace (some (str "u")) (str "T") (str "a\nb") 3 1400
        = [Event.render (str "T") (str "a\nb") (-1)]
    ∧ applyEvents
        (displayScrollingTextTrace (some (str "u")) (str "T") (str "a\nb") 3 1400)
        [(str "u", false)]
      = [(str "u", false)] :=
  ⟨by decide,
    (displayScrollingText_fast_path (some (str "u")) (str "T") (str "a\nb") 3 1400
      (by decide)).1,
    (displayScrollingText_fast_path (some (str "u")) (str "T") (str "a\nb") 3 1400
      (by decide)).2 [(str "u", false)]⟩

/-! ### Claims C6, C8, C9, C10: failure paths and degenerate inputs -/

/-- **C6 (code bug).**  The source clears `scrollingTextActive` only by
the final `set(userId, false)` statement; no `try`/`finally` guards the
render calls.  Evaluated at a four-line (scrolling) content whose first
render call throws: the promise rejects and the flag for the user is
left `true`.  On normal completion (no sink failure) the same
invocation does clear the flag. -/
theorem scrollingFlag_not_cleared_on_sink_error :
    (runSink (fun k => k == 0)
        (displayScrollingTextTrace (some (str "u1")) (str "Quest") (str "a\nb\nc\nd") 3 1400)
        0).2 = true
    ∧ getFlag
        (applyEvents
          (runSink (fun k => k == 0)
            (displayScrollingTextTrace (some (str "u1")) (str "Quest") (str "a\nb\nc\nd") 3 1400)
            0).1
          [])
        (str "u1") = some true
    ∧ getFlag
        (applyEvents
          (displayScrollingTextTrace (some (str "u1")) (str "Quest") (str "a\nb\nc\nd") 3 1400)
          [])
        (str "u1") = some false := by
  refine ⟨rfl, rfl, rfl⟩

/-- **C8 (code bug).**  The engine performs no input validation: with
`maxLinesPerScreen = 0` (and any content) it raises nothing and renders
a scroll sequence of empty windows, and `wrapText` with
`maxLineLength = 0` silently puts each word on its own line, again
raising nothing. -/
theorem degenerate_config_no_error :
    renders (displayScrollingTextTrace none (str "T") (str "hello") 0 1000)
      = [(str "T", [], (1000 : ℚ) * (3 / 2)), (str "T", [], (1000 : ℚ) * 4)]
    ∧ wrapText (str "hello world") 0 = [str "hello", str "world"] := by
  refine ⟨rfl, rfl⟩

/-- **C9.**  Empty content: `wrapText` yields exactly one empty line,
the line count fits the default `maxLinesPerScreen = 3`, and the
invocation resolves through the single-render fast path with the
open-ended sentinel, without any failure. -/
theorem empty_content_fast_path (u : Option Str) (title : Str) (d : ℚ) :
    wrapText [] 36 = [[]]
    ∧ (wrapText [] 36).length ≤ 3
    ∧ displayScrollingTextTrace u title [] 3 d = [Event.render title [] (-1)]
    ∧ runSink (fun _ => false) (displayScrollingTextTrace u title [] 3 d) 0
        = ([Event.render title [] (-1)], false) :=
  ⟨rfl, by decide, rfl, rfl⟩

/-- **C10.**  When the reverse session lookup yields nothing
(`userId = none`), a scrolling invocation still performs the full render
sequence (`scrollBody`), but both flag writes are skipped: replaying
the trace leaves every flag map unchanged. -/
theorem unregistered_session_flag_untouched (title content : Str) (m : Nat) (d : ℚ)
    (h : m < (wrapText content 36).length) :
    displayScrollingTextTrace none title content m d
      = scrollBody title (wrapText content 36) m d
    ∧ ∀ fm : FlagMap,
        applyEvents (displayScrollingTextTrace none title content m d) fm = fm := by
  have ht : displayScrollingTextTrace none title content m d
      = scrollBody title (wrapText content 36) m d := by
    simp only [displayScrollingTextTrace]
    rw [if_neg (by omega)]
    simp [flagEvents]
  refine ⟨ht, fun fm => ?_⟩
  rw [ht, scrollBody_eq _ _ _ _ h, applyEvents_append, applyEvents_window_blocks]
  rfl

/-- Witness for C10 at a concrete input. -/
theorem unregistered_session_flag_untouched_witness :
    3 < (wrapText (str "a\nb\nc\nd") 36).length
    ∧ displayScrollingTextTrace none (str "T") (str "a\nb\nc\nd") 3 1400
        = scrollBody (str "T") (wrapText (str "a\nb\nc\nd") 36) 3 1400
    ∧ applyEvents (displayScrollingTextTrace none (str "T") (str "a\nb\nc\nd") 3 1400)
        [(str "v", true)]
      = [(str "v", true)] :=
  ⟨by decide,
    (unregistered_session_flag_untouched (str "T") (str "a\nb\nc\nd") 3 1400 (by decide)).1,
    (unregistered_session_flag_untouched (str "T") (str "a\nb\nc\nd") 3 1400 (by decide)).2
      [(str "v", true)]⟩

/-! ### Claim C7: coordination of the other display writers -/

/-- A flag map in which scrolling is active for user `u1`. -/
def c7Flags : FlagMap := [(str "u1", true)]

/-- A concrete quest-proximity environment: active quest at (42, -71),
2 km away, throttle window elapsed. -/
def c7ProxEnv : DistanceEnv :=
  { activeQuest := true, templateFound := true, questLat := some 42,
    questLng := some (-71), userLocation := true, distanceKm := 2,
    lastNotification := none, now := 10000 }

/-- A concrete command environment in which every external call
succeeds. -/
def c7CmdEnv : CommandEnv :=
  { activeQuest := true, templateFound := true, userLocation := true,
    generatedQuest := true, createSucceeded := true }

/-- **C7, counterexample.**  The claim says every component writing
one-shot messages - in particular the periodic distance/proximity
notification paths - first reads the flag and skips while it is true.
`checkQuestProximity` never reads `scrollingTextActive`: with the flag
for `u1` set, it still issues a `showTextWall`. -/
theorem checkQuestProximity_writes_during_scroll :
    getFlag c7Flags (str "u1") = some true
    ∧ checkQuestProximity c7Flags (str "u1") c7ProxEnv ≠ [] := by
  refine ⟨rfl, ?_⟩
  have h1 : checkQuestProximity c7Flags (str "u1") c7ProxEnv
      = if (2 : ℚ) ≤ 1 / 10 then [Write.textWall 2000] else [Write.textWall 2000] := rfl
  rw [h1, ite_self]
  simp

/-- **C7 (amended).**  The voice-command handler and the distance-card
path do read the flag first and skip every display write of the cycle
when it is true; the quest-proximity notification path performs no such
check - its writes do not depend on the flag map at all. -/
theorem display_writers_flag_guard (flags : FlagMap) (u text : Str)
    (env : CommandEnv) (denv penv : DistanceEnv)
    (h : getFlag flags u = some true) :
    handleQuestCommands flags u text env denv = []
    ∧ showDistanceCardForUser flags u denv = []
    ∧ ∀ flags2 : FlagMap,
        checkQuestProximity flags u penv = checkQuestProximity flags2 u penv := by
  have hg : (getFlag flags u).getD false = true := by rw [h]; rfl
  refine ⟨?_, ?_, fun _ => rfl⟩
  · simp only [handleQuestCommands]
    rw [if_pos hg]
  · simp only [showDistanceCardForUser]
    rw [if_pos hg]

/-- Witness for the amended C7 at concrete inputs. -/
theorem display_writers_flag_guard_witness :
    getFlag c7Flags (str "u1") = some true
    ∧ handleQuestCommands c7Flags (str "u1") (str "new quest") c7CmdEnv c7ProxEnv = []
    ∧ showDistanceCardForUser c7Flags (str "u1") c7ProxEnv = []
    ∧ checkQuestProximity c7Flags (str "u1") c7ProxEnv
        = checkQuestProximity [] (str "u1") c7ProxEnv :=
  ⟨rfl,
    (display_writers_flag_guard c7Flags (str "u1") (str "new quest")
      c7CmdEnv c7ProxEnv c7ProxEnv rfl).1,
    (display_writers_flag_guard c7Flags (str "u1") (str "new quest")
      c7CmdEnv c7ProxEnv c7ProxEnv rfl).2.1,
    (display_writers_flag_guard c7Flags (str "u1") (str "new quest")
      c7CmdEnv c7ProxEnv c7ProxEnv rfl).2.2 []⟩

end Hackmit
